import Mathlib

/-!
Shallow embedding of `python_examples/maths_module.py`.

The module provides four standalone functions:
  - `random_vector` : random unit vector on the sphere (consumes two uniform draws);
  - `random_translate_vector` : translate a 3-vector by a bounded random offset
    (consumes three uniform draws);
  - `metropolis` : Metropolis acceptance test with an exponent guard
    (consumes at most one uniform draw);
  - `rotate_vector` : Rodrigues/Goldstein rotation of a 3-vector about a unit axis,
    with assertion-style precondition checks.

Floating-point numbers are modelled as real numbers.  The ambient numpy random
source is modelled as an explicit stream `ζ : ℕ → ℝ` of uniform samples in
`[0,1)`; each randomized function returns its result together with the number
of samples it consumed from the stream.  Python `assert` failures are modelled
by an `Except` error value carrying a constructor that identifies the failed
assertion (and, for the non-unit-axis assertion, the offending axis components,
mirroring the formatted assertion message).
-/

/-- A 3-component vector of reals, the model of a numpy array of size 3. -/
structure Vec3 where
  x : ℝ
  y : ℝ
  z : ℝ

/-- Componentwise addition of 3-vectors (numpy `+` on arrays). -/
def add3 (a b : Vec3) : Vec3 := ⟨a.x + b.x, a.y + b.y, a.z + b.z⟩

/-- Scalar multiplication of a 3-vector (numpy scalar `*` array). -/
def smul3 (t : ℝ) (a : Vec3) : Vec3 := ⟨t * a.x, t * a.y, t * a.z⟩

/-- Dot product of 3-vectors (`np.dot`). -/
def dot3 (a b : Vec3) : ℝ := a.x * b.x + a.y * b.y + a.z * b.z

/-- Cross product of 3-vectors (`np.cross`). -/
def cross3 (a b : Vec3) : Vec3 :=
  ⟨a.y * b.z - a.z * b.y, a.z * b.x - a.x * b.z, a.x * b.y - a.y * b.x⟩

/-- Sum of squared components of a 3-vector. -/
def normSq3 (a : Vec3) : ℝ := a.x ^ 2 + a.y ^ 2 + a.z ^ 2

/-- Euclidean norm of a 3-vector. -/
noncomputable def norm3 (a : Vec3) : ℝ := Real.sqrt (normSq3 a)

/-- Sum of squares of the entries of a list (`np.sum(axis**2)` for a 1-d array). -/
def sumSq (l : List ℝ) : ℝ := (l.map fun t => t ^ 2).sum

/-- Euclidean norm of a list of reals viewed as a vector. -/
noncomputable def listNorm (l : List ℝ) : ℝ := Real.sqrt (sumSq l)

/-- Read a list of length 3 into a `Vec3` (entries past the end default to 0;
the callers below only use it under a length-3 guard). -/
def ofList3 (l : List ℝ) : Vec3 := ⟨l.getD 0 0, l.getD 1 0, l.getD 2 0⟩

/-- Turn a `Vec3` back into a 3-element list. -/
def toList3 (v : Vec3) : List ℝ := [v.x, v.y, v.z]

/-- Python `math.isclose` with its default tolerances
`rel_tol = 1e-9`, `abs_tol = 0.0`:
`abs(a-b) <= max(rel_tol * max(abs(a), abs(b)), abs_tol)`. -/
def isclose (a b : ℝ) : Prop :=
  |a - b| ≤ max ((1e-9 : ℝ) * max |a| |b|) 0

/-- The `exponent_guard = 75.0` threshold from `metropolis`. -/
def exponent_guard : ℝ := 75

/-- Model of `random_vector()`: two uniform draws `zeta = np.random.rand(2)`,
`c = 2*zeta[0] - 1`, `s = 0` if `c >= 1` else `sqrt(1 - c**2)`,
`phi = zeta[1] * 2*pi`; returns `(s*cos phi, s*sin phi, c)` and the number of
consumed samples (2). -/
noncomputable def random_vector (ζ : ℕ → ℝ) : Vec3 × ℕ :=
  let c : ℝ := 2 * ζ 0 - 1
  let s : ℝ := if c ≥ 1 then 0 else Real.sqrt (1 - c ^ 2)
  let phi : ℝ := ζ 1 * (2 * Real.pi)
  (⟨s * Real.cos phi, s * Real.sin phi, c⟩, 2)

/-- Model of `random_translate_vector(dr_max, old)`: three uniform draws
`zeta = np.random.rand(3)`, rescaled to `2*zeta - 1`, and
`old + zeta * dr_max` is returned, together with the number of consumed
samples (3). -/
def random_translate_vector (dr_max : ℝ) (old : Vec3) (ζ : ℕ → ℝ) : Vec3 × ℕ :=
  (add3 old ⟨(2 * ζ 0 - 1) * dr_max, (2 * ζ 1 - 1) * dr_max, (2 * ζ 2 - 1) * dr_max⟩, 3)

open Classical in
/-- Model of `metropolis(delta)`: reject without drawing if
`delta > exponent_guard`; accept without drawing if `delta < 0`; otherwise draw
one uniform sample and accept iff `exp(-delta) > zeta`.  The second component
counts consumed samples. -/
noncomputable def metropolis (delta : ℝ) (ζ : ℕ → ℝ) : Bool × ℕ :=
  if delta > exponent_guard then (false, 0)
  else if delta < 0 then (true, 0)
  else ((if Real.exp (-delta) > ζ 0 then true else false), 1)

open Classical in
/-- Modelled from the spec: the unguarded Metropolis rule that always draws one
sample and accepts iff `exp(-delta) > zeta`, used to state the
refinement-equivalence claim about the two early-exit branches. -/
noncomputable def metropolis_unguarded (delta : ℝ) (ζ : ℕ → ℝ) : Bool × ℕ :=
  ((if Real.exp (-delta) > ζ 0 then true else false), 1)

/-- The errors signalled by the three `assert` statements of `rotate_vector`,
in source order: `'Incorrect size of old'`, `'Incorrect size of axis'`, and
`'Non-unit vector {} {} {}'.format(*axis)` (the latter carries the axis
components, as the formatted message does). -/
inductive RotateError where
  | oldSize : RotateError
  | axisSize : RotateError
  | nonUnit : List ℝ → RotateError

open Classical in
/-- Model of `rotate_vector(angle, axis, old)`: assert `old.size == 3`, then
`axis.size == 3`, then `isclose(np.sum(axis**2), 1.0)`; then return
`c * old + (1 - c) * proj * axis + s * np.cross(axis, old)` with
`c = cos angle`, `s = sin angle`, `proj = np.dot(axis, old)`. -/
noncomputable def rotate_vector (angle : ℝ) (axis old : List ℝ) :
    Except RotateError (List ℝ) :=
  if old.length = 3 then
    if axis.length = 3 then
      if isclose (sumSq axis) 1 then
        let c : ℝ := Real.cos angle
        let s : ℝ := Real.sin angle
        let ax : Vec3 := ofList3 axis
        let ol : Vec3 := ofList3 old
        let proj : ℝ := dot3 ax ol
        let e : Vec3 := add3 (add3 (smul3 c ol) (smul3 ((1 - c) * proj) ax))
          (smul3 s (cross3 ax ol))
        Except.ok (toList3 e)
      else Except.error (RotateError.nonUnit axis)
    else Except.error RotateError.axisSize
  else Except.error RotateError.oldSize

/-- Modelled from the spec: the Rodrigues/Goldstein rotation formula
`cos(angle)*old + (1 - cos(angle))*(axis . old)*axis + sin(angle)*(axis x old)`
as written in the specification, to be compared with `rotate_vector`. -/
noncomputable def rodrigues_spec (angle : ℝ) (axis old : Vec3) : Vec3 :=
  add3 (add3 (smul3 (Real.cos angle) old)
      (smul3 ((1 - Real.cos angle) * dot3 axis old) axis))
    (smul3 (Real.sin angle) (cross3 axis old))

/-- Claim C5: for `delta > 75` the test deterministically rejects with no draw,
for `delta < 0` it deterministically accepts with no draw, and on either guard
branch the outcome does not depend on the state of the random source. -/
theorem metropolis_guards :
    (∀ delta : ℝ, ∀ ζ : ℕ → ℝ, delta > 75 → metropolis delta ζ = (false, 0)) ∧
    (∀ delta : ℝ, ∀ ζ : ℕ → ℝ, delta < 0 → metropolis delta ζ = (true, 0)) ∧
    (∀ delta : ℝ, ∀ ζ ζ' : ℕ → ℝ, delta > 75 ∨ delta < 0 →
      metropolis delta ζ = metropolis delta ζ') := by
  refine ⟨?_, ?_, ?_⟩
  · intro delta ζ h
    simp only [metropolis, exponent_guard]
    rw [if_pos h]
  · intro delta ζ h
    have hng : ¬ delta > exponent_guard := by
      simp only [exponent_guard]; linarith
    simp only [metropolis]
    rw [if_neg hng, if_pos h]
  · intro delta ζ ζ' h
    rcases h with h | h
    · simp only [metropolis, exponent_guard]
      rw [if_pos h, if_pos h]
    · have hng : ¬ delta > exponent_guard := by
        simp only [exponent_guard]; linarith
      simp only [metropolis]
      rw [if_neg hng, if_neg hng, if_pos h, if_pos h]

/-- Witness for C5 at `delta = 76` and `delta = -1`. -/
theorem metropolis_guards_witness :
    metropolis 76 (fun _ => 0) = (false, 0) ∧
    metropolis (-1) (fun _ => 0) = (true, 0) :=
  ⟨metropolis_guards.1 76 (fun _ => 0) (by norm_num),
   metropolis_guards.2.1 (-1) (fun _ => 0) (by norm_num)⟩

/-- Claim C6: for `delta = 0` the test accepts for every draw `ζ 0 ∈ [0,1)`,
consuming one sample, since `exp(0) = 1 > ζ 0`. -/
theorem metropolis_zero (ζ : ℕ → ℝ) (h0 : 0 ≤ ζ 0) (h1 : ζ 0 < 1) :
    metropolis 0 ζ = (true, 1) := by
  have hng : ¬ (0 : ℝ) > exponent_guard := by
    simp only [exponent_guard]; norm_num
  have hnd : ¬ (0 : ℝ) < 0 := by norm_num
  have hacc : Real.exp (-(0 : ℝ)) > ζ 0 := by
    rw [neg_zero, Real.exp_zero]; exact h1
  simp only [metropolis]
  rw [if_neg hng, if_neg hnd, if_pos hacc]

/-- Witness for C6 at the stream constantly 0. -/
theorem metropolis_zero_witness :
    metropolis 0 (fun _ => 0) = (true, 1) :=
  metropolis_zero (fun _ => 0) (by norm_num) (by norm_num)

/-- Counterexample to claim C4: at `delta = 76` and draw `ζ 0 = 0 ∈ [0,1)`, the
guarded implementation rejects but the unguarded rule `exp(-delta) > ζ`
accepts, since `exp(-76) > 0`. -/
theorem metropolis_guard_not_exact :
    (0 : ℝ) ≤ 0 ∧ (0 : ℝ) < 1 ∧
    (metropolis 76 (fun _ => 0)).1 = false ∧
    (metropolis_unguarded 76 (fun _ => 0)).1 = true := by
  refine ⟨le_refl 0, by norm_num, ?_, ?_⟩
  · have h : (76 : ℝ) > exponent_guard := by
      simp only [exponent_guard]; norm_num
    simp only [metropolis]
    rw [if_pos h]
  · have h : Real.exp (-(76 : ℝ)) > (fun _ : ℕ => (0 : ℝ)) 0 :=
      Real.exp_pos _
    simp only [metropolis_unguarded]
    rw [if_pos h]

/-- Claim C4, amended: the `delta < 0` early exit is an exact simplification of
the unguarded rule for every draw `ζ 0 ∈ [0,1)`; any `delta ≤ 75` gives the
same decision as the unguarded rule; and the `delta > 75` early exit agrees
with the unguarded rule exactly when the draw satisfies
`ζ 0 ≥ exp(-delta)` (it disagrees when `ζ 0 < exp(-delta)`). -/
theorem metropolis_guard_agrees :
    (∀ delta : ℝ, ∀ ζ : ℕ → ℝ, 0 ≤ ζ 0 → ζ 0 < 1 → delta ≤ 75 →
      (metropolis delta ζ).1 = (metropolis_unguarded delta ζ).1) ∧
    (∀ delta : ℝ, ∀ ζ : ℕ → ℝ, delta > 75 →
      ((metropolis delta ζ).1 = (metropolis_unguarded delta ζ).1 ↔
        Real.exp (-delta) ≤ ζ 0)) := by
  constructor
  · intro delta ζ h0 h1 hle
    have hng : ¬ delta > exponent_guard := by
      simp only [exponent_guard]; linarith
    by_cases hneg : delta < 0
    · have hacc : Real.exp (-delta) > ζ 0 := by
        have h2 : (1 : ℝ) < Real.exp (-delta) := by
          rw [← Real.exp_zero]
          exact Real.exp_lt_exp.mpr (by linarith)
        linarith
      simp only [metropolis, metropolis_unguarded]
      rw [if_neg hng, if_pos hneg, if_pos hacc]
    · simp only [metropolis, metropolis_unguarded]
      rw [if_neg hng, if_neg hneg]
  · intro delta ζ hgt
    have hg : delta > exponent_guard := by
      simp only [exponent_guard]; linarith
    simp only [metropolis, metropolis_unguarded]
    rw [if_pos hg]
    constructor
    · intro h
      by_contra hlt
      push_neg at hlt
      rw [if_pos hlt] at h
      simp at h
    · intro h
      have hnacc : ¬ Real.exp (-delta) > ζ 0 := not_lt.mpr h
      rw [if_neg hnacc]

/-- Witness for the amended C4 at `delta = 0`, draw 0. -/
theorem metropolis_guard_agrees_witness :
    (metropolis 0 (fun _ => 0)).1 = (metropolis_unguarded 0 (fun _ => 0)).1 :=
  metropolis_guard_agrees.1 0 (fun _ => 0) (by norm_num) (by norm_num) (by norm_num)

/-- Counterexample to claim C9: `random_translate_vector` consumes three
uniform samples per call, not at most one. -/
theorem random_translate_vector_three_draws :
    (random_translate_vector 1 ⟨0, 0, 0⟩ (fun _ => 0)).2 = 3 ∧
    ¬ (random_translate_vector 1 ⟨0, 0, 0⟩ (fun _ => 0)).2 ≤ 1 := by
  constructor
  · rfl
  · simp [random_translate_vector]

/-- Claim C9, amended: modelling the random source as an explicit stream,
`random_vector` consumes exactly two samples, `random_translate_vector`
consumes exactly three (one vectorized call of three uniforms), and
`metropolis` consumes at most one. -/
theorem sample_counts :
    (∀ ζ : ℕ → ℝ, (random_vector ζ).2 = 2) ∧
    (∀ dr_max : ℝ, ∀ old : Vec3, ∀ ζ : ℕ → ℝ,
      (random_translate_vector dr_max old ζ).2 = 3) ∧
    (∀ delta : ℝ, ∀ ζ : ℕ → ℝ, (metropolis delta ζ).2 ≤ 1) := by
  refine ⟨fun ζ => rfl, fun dr_max old ζ => rfl, fun delta ζ => ?_⟩
  simp only [metropolis]
  split_ifs <;> norm_num

/-- Claim C7: `random_translate_vector dr_max old` returns `old` plus the
offset `((2ζ₀-1)·dr_max, (2ζ₁-1)·dr_max, (2ζ₂-1)·dr_max)` for every `dr_max`
of either sign (no sign validation is performed), and when `dr_max ≥ 0` and
the three draws lie in `[0,1)` each component of `result − old` lies in
`[−dr_max, dr_max]`. -/
theorem random_translate_vector_bounds :
    (∀ dr_max : ℝ, ∀ old : Vec3, ∀ ζ : ℕ → ℝ,
      (random_translate_vector dr_max old ζ).1 =
        add3 old ⟨(2 * ζ 0 - 1) * dr_max, (2 * ζ 1 - 1) * dr_max,
          (2 * ζ 2 - 1) * dr_max⟩) ∧
    (∀ dr_max : ℝ, ∀ old : Vec3, ∀ ζ : ℕ → ℝ, 0 ≤ dr_max →
      (∀ i, i < 3 → 0 ≤ ζ i ∧ ζ i < 1) →
      ((random_translate_vector dr_max old ζ).1.x - old.x) ∈
        Set.Icc (-dr_max) dr_max ∧
      ((random_translate_vector dr_max old ζ).1.y - old.y) ∈
        Set.Icc (-dr_max) dr_max ∧
      ((random_translate_vector dr_max old ζ).1.z - old.z) ∈
        Set.Icc (-dr_max) dr_max) := by
  constructor
  · intro dr_max old ζ; rfl
  · intro dr_max old ζ hd hz
    obtain ⟨hz0l, hz0u⟩ := hz 0 (by norm_num)
    obtain ⟨hz1l, hz1u⟩ := hz 1 (by norm_num)
    obtain ⟨hz2l, hz2u⟩ := hz 2 (by norm_num)
    simp only [random_translate_vector, add3, Set.mem_Icc]
    refine ⟨⟨?_, ?_⟩, ⟨?_, ?_⟩, ⟨?_, ?_⟩⟩ <;> nlinarith

/-- Witness for C7 at `dr_max = 1`, `old = 0`, constant draw 0. -/
theorem random_translate_vector_bounds_witness :
    ((random_translate_vector 1 ⟨0, 0, 0⟩ (fun _ => 0)).1.x - (0 : ℝ)) ∈
      Set.Icc (-(1 : ℝ)) 1 ∧
    ((random_translate_vector 1 ⟨0, 0, 0⟩ (fun _ => 0)).1.y - (0 : ℝ)) ∈
      Set.Icc (-(1 : ℝ)) 1 ∧
    ((random_translate_vector 1 ⟨0, 0, 0⟩ (fun _ => 0)).1.z - (0 : ℝ)) ∈
      Set.Icc (-(1 : ℝ)) 1 :=
  random_translate_vector_bounds.2 1 ⟨0, 0, 0⟩ (fun _ => 0) (by norm_num)
    (fun i _ => ⟨le_refl 0, by norm_num⟩)

/-- With the clamp branch not taken, `random_vector` is the explicit sphere
point with `c = 2ζ₀ - 1`, `s = sqrt(1 - c²)`, `phi = ζ₁·2π`. -/
lemma random_vector_eq (ζ : ℕ → ℝ) (h : ¬ (2 * ζ 0 - 1 ≥ 1)) :
    random_vector ζ =
      (⟨Real.sqrt (1 - (2 * ζ 0 - 1) ^ 2) * Real.cos (ζ 1 * (2 * Real.pi)),
        Real.sqrt (1 - (2 * ζ 0 - 1) ^ 2) * Real.sin (ζ 1 * (2 * Real.pi)),
        2 * ζ 0 - 1⟩, 2) := by
  simp only [random_vector]
  rw [if_neg h]

/-- Claim C8: for draws `(ζ₀, ζ₁) ∈ [0,1)²`, `random_vector` returns the vector
`(s·cos phi, s·sin phi, c)` with `c = 2ζ₀ - 1`, `s = sqrt(1 - c²)` (the clamp
to 0 applies only when `c ≥ 1`, which does not happen here), `phi = ζ₁·2π`,
and its Euclidean norm is exactly 1 in the real-number model. -/
theorem random_vector_unit (ζ : ℕ → ℝ) (h00 : 0 ≤ ζ 0) (h01 : ζ 0 < 1)
    (h10 : 0 ≤ ζ 1) (h11 : ζ 1 < 1) :
    (random_vector ζ).1 =
      ⟨Real.sqrt (1 - (2 * ζ 0 - 1) ^ 2) * Real.cos (ζ 1 * (2 * Real.pi)),
       Real.sqrt (1 - (2 * ζ 0 - 1) ^ 2) * Real.sin (ζ 1 * (2 * Real.pi)),
       2 * ζ 0 - 1⟩ ∧
    norm3 (random_vector ζ).1 = 1 := by
  have hc : ¬ (2 * ζ 0 - 1 ≥ 1) := by push_neg; linarith
  rw [random_vector_eq ζ hc]
  refine ⟨rfl, ?_⟩
  have hge : (0 : ℝ) ≤ 1 - (2 * ζ 0 - 1) ^ 2 := by nlinarith
  have hs2 : Real.sqrt (1 - (2 * ζ 0 - 1) ^ 2) ^ 2 = 1 - (2 * ζ 0 - 1) ^ 2 :=
    Real.sq_sqrt hge
  have hsc := Real.sin_sq_add_cos_sq (ζ 1 * (2 * Real.pi))
  simp only [norm3, normSq3]
  have key : (Real.sqrt (1 - (2 * ζ 0 - 1) ^ 2) * Real.cos (ζ 1 * (2 * Real.pi))) ^ 2
      + (Real.sqrt (1 - (2 * ζ 0 - 1) ^ 2) * Real.sin (ζ 1 * (2 * Real.pi))) ^ 2
      + (2 * ζ 0 - 1) ^ 2 = 1 := by
    linear_combination (Real.sqrt (1 - (2 * ζ 0 - 1) ^ 2)) ^ 2 * hsc + hs2
  rw [key, Real.sqrt_one]

/-- Witness for C8 at the stream constantly 0. -/
theorem random_vector_unit_witness :
    norm3 (random_vector (fun _ => 0)).1 = 1 :=
  (random_vector_unit (fun _ => 0) (by norm_num) (by norm_num) (by norm_num)
    (by norm_num)).2

/-- Claim C10: for a draw `ζ₀ ∈ [0,1)` the computed cosine `c = 2ζ₀ - 1` is
strictly below 1, the clamp branch `s = 0` is not taken, the square-root
argument `1 - c²` is non-negative, and the returned components are the
unclamped ones. -/
theorem random_vector_no_clamp (ζ : ℕ → ℝ) (h0 : 0 ≤ ζ 0) (h1 : ζ 0 < 1) :
    2 * ζ 0 - 1 < 1 ∧ ¬ (2 * ζ 0 - 1 ≥ 1) ∧ 0 ≤ 1 - (2 * ζ 0 - 1) ^ 2 ∧
    (random_vector ζ).1.z = 2 * ζ 0 - 1 ∧
    (random_vector ζ).1.x =
      Real.sqrt (1 - (2 * ζ 0 - 1) ^ 2) * Real.cos (ζ 1 * (2 * Real.pi)) := by
  have hc : ¬ (2 * ζ 0 - 1 ≥ 1) := by push_neg; linarith
  refine ⟨by linarith, hc, by nlinarith, ?_, ?_⟩ <;> rw [random_vector_eq ζ hc]

/-- Witness for C10 at the stream constantly 0. -/
theorem random_vector_no_clamp_witness :
    (random_vector (fun _ => 0)).1.z = 2 * (0 : ℝ) - 1 :=
  (random_vector_no_clamp (fun _ => 0) (by norm_num) (by norm_num)).2.2.2.1

/-- Sum of squares of a 3-element list, unfolded. -/
lemma sumSq_triple (a1 a2 a3 : ℝ) : sumSq [a1, a2, a3] = a1 ^ 2 + a2 ^ 2 + a3 ^ 2 := by
  simp [sumSq]; ring

/-- Equal reals are close in the sense of `math.isclose`. -/
lemma isclose_of_eq {a b : ℝ} (h : a = b) : isclose a b := by
  rw [h, isclose, sub_self, abs_zero]
  exact le_max_right _ _

/-- The value 2 is not `isclose` to 1 under the default tolerances. -/
lemma not_isclose_two_one : ¬ isclose 2 1 := by
  rw [isclose]
  intro hle
  have h1 : |(2 : ℝ) - 1| = 1 := by norm_num
  have h2 : max |(2 : ℝ)| |(1 : ℝ)| = 2 := by
    rw [abs_of_nonneg (by norm_num : (0:ℝ) ≤ 2), abs_of_nonneg (by norm_num : (0:ℝ) ≤ 1)]
    exact max_eq_left (by norm_num)
  have h3 : max ((1e-9 : ℝ) * 2) 0 = 2e-9 := by
    rw [max_eq_left (by norm_num)]; norm_num
  rw [h1, h2, h3] at hle
  norm_num at hle

/-- On well-sized arguments with a close-to-unit axis, `rotate_vector` returns
the explicit componentwise Goldstein formula. -/
lemma rotate_vector_ok (angle a1 a2 a3 o1 o2 o3 : ℝ)
    (h : isclose (a1 ^ 2 + a2 ^ 2 + a3 ^ 2) 1) :
    rotate_vector angle [a1, a2, a3] [o1, o2, o3] =
      Except.ok
        [Real.cos angle * o1 + (1 - Real.cos angle) * (a1 * o1 + a2 * o2 + a3 * o3) * a1
           + Real.sin angle * (a2 * o3 - a3 * o2),
         Real.cos angle * o2 + (1 - Real.cos angle) * (a1 * o1 + a2 * o2 + a3 * o3) * a2
           + Real.sin angle * (a3 * o1 - a1 * o3),
         Real.cos angle * o3 + (1 - Real.cos angle) * (a1 * o1 + a2 * o2 + a3 * o3) * a3
           + Real.sin angle * (a1 * o2 - a2 * o1)] := by
  have hsum : isclose (sumSq [a1, a2, a3]) 1 := by rwa [sumSq_triple]
  simp only [rotate_vector]
  rw [if_pos (by simp : ([o1, o2, o3] : List ℝ).length = 3),
      if_pos (by simp : ([a1, a2, a3] : List ℝ).length = 3),
      if_pos hsum]
  simp only [ofList3, toList3, dot3, cross3, smul3, add3, List.getD_cons_zero,
    List.getD_cons_succ, Except.ok.injEq, List.cons.injEq, and_true]

/-- Claim C1: on every pair of 3-component arguments with a close-to-unit axis,
`rotate_vector` returns exactly the Rodrigues/Goldstein rotation
`cos(angle)·old + (1 − cos(angle))·(axis · old)·axis + sin(angle)·(axis × old)`,
and in particular `rotate_vector (π/2) (0,0,1) (1,0,0) = (0,1,0)`. -/
theorem rotate_vector_is_rodrigues :
    (∀ angle : ℝ, ∀ axis old : List ℝ, old.length = 3 → axis.length = 3 →
      isclose (sumSq axis) 1 →
      rotate_vector angle axis old =
        Except.ok (toList3 (rodrigues_spec angle (ofList3 axis) (ofList3 old)))) ∧
    rotate_vector (Real.pi / 2) [0, 0, 1] [1, 0, 0] = Except.ok [0, 1, 0] := by
  constructor
  · intro angle axis old ho ha hcl
    simp only [rotate_vector, rodrigues_spec]
    rw [if_pos ho, if_pos ha, if_pos hcl]
  · have h : isclose ((0 : ℝ) ^ 2 + 0 ^ 2 + 1 ^ 2) 1 := isclose_of_eq (by norm_num)
    rw [rotate_vector_ok (Real.pi / 2) 0 0 1 1 0 0 h]
    norm_num [Real.cos_pi_div_two, Real.sin_pi_div_two]

/-- Witness for C1 at `angle = 0`, `axis = (1,0,0)`, `old = (0,2,0)`. -/
theorem rotate_vector_is_rodrigues_witness :
    rotate_vector 0 [1, 0, 0] [0, 2, 0] =
      Except.ok (toList3 (rodrigues_spec 0 (ofList3 [1, 0, 0]) (ofList3 [0, 2, 0]))) :=
  rotate_vector_is_rodrigues.1 0 [1, 0, 0] [0, 2, 0] (by simp) (by simp)
    (by rw [sumSq_triple]; exact isclose_of_eq (by norm_num))

/-- Algebraic core of length preservation: with a unit axis and
`sin² + cos² = 1`, the squared norm of the Goldstein rotation of `o`
equals the squared norm of `o`. -/
lemma rodrigues_normSq (c s a1 a2 a3 o1 o2 o3 : ℝ)
    (ha : a1 ^ 2 + a2 ^ 2 + a3 ^ 2 = 1) (hcs : s ^ 2 + c ^ 2 = 1) :
    (c * o1 + (1 - c) * (a1 * o1 + a2 * o2 + a3 * o3) * a1 + s * (a2 * o3 - a3 * o2)) ^ 2
      + (c * o2 + (1 - c) * (a1 * o1 + a2 * o2 + a3 * o3) * a2 + s * (a3 * o1 - a1 * o3)) ^ 2
      + (c * o3 + (1 - c) * (a1 * o1 + a2 * o2 + a3 * o3) * a3 + s * (a1 * o2 - a2 * o1)) ^ 2
    = o1 ^ 2 + o2 ^ 2 + o3 ^ 2 := by
  linear_combination
    ((1 - c) ^ 2 * (a1 * o1 + a2 * o2 + a3 * o3) ^ 2
        + (1 - c ^ 2) * (o1 ^ 2 + o2 ^ 2 + o3 ^ 2)) * ha
      + ((a1 ^ 2 + a2 ^ 2 + a3 ^ 2) * (o1 ^ 2 + o2 ^ 2 + o3 ^ 2)
        - (a1 * o1 + a2 * o2 + a3 * o3) ^ 2) * hcs

/-- Claim C2: for every angle, every 3-component axis of unit Euclidean length
and every 3-component vector `old`, `rotate_vector` succeeds and the Euclidean
norm of its result equals the Euclidean norm of `old`. -/
theorem rotate_vector_preserves_norm (angle a1 a2 a3 o1 o2 o3 : ℝ)
    (h : listNorm [a1, a2, a3] = 1) :
    ∃ v : List ℝ, rotate_vector angle [a1, a2, a3] [o1, o2, o3] = Except.ok v ∧
      listNorm v = listNorm [o1, o2, o3] := by
  have hsq : a1 ^ 2 + a2 ^ 2 + a3 ^ 2 = 1 := by
    rw [listNorm, sumSq_triple] at h
    exact Real.sqrt_eq_one.mp h
  have hcl : isclose (a1 ^ 2 + a2 ^ 2 + a3 ^ 2) 1 := isclose_of_eq hsq
  refine ⟨_, rotate_vector_ok angle a1 a2 a3 o1 o2 o3 hcl, ?_⟩
  rw [listNorm, listNorm, sumSq_triple, sumSq_triple]
  congr 1
  exact rodrigues_normSq (Real.cos angle) (Real.sin angle) a1 a2 a3 o1 o2 o3 hsq
    (Real.sin_sq_add_cos_sq angle)

/-- Witness for C2 at `angle = 0`, `axis = (1,0,0)`, `old = (0,2,0)`. -/
theorem rotate_vector_preserves_norm_witness :
    ∃ v : List ℝ, rotate_vector 0 [1, 0, 0] [0, 2, 0] = Except.ok v ∧
      listNorm v = listNorm [0, 2, 0] :=
  rotate_vector_preserves_norm 0 1 0 0 0 2 0
    (by rw [listNorm, sumSq_triple]; norm_num [Real.sqrt_one])

/-- Claim C3: `rotate_vector` succeeds exactly when `old` has 3 components,
`axis` has 3 components, and the sum of squares of `axis` is `isclose` to 1;
otherwise it signals the error of the first violated assertion, which names
the malformed argument, the non-unit-axis error carrying the axis components;
no input is corrected or normalized. -/
theorem rotate_vector_precondition :
    (∀ angle : ℝ, ∀ axis old : List ℝ,
      (∃ v, rotate_vector angle axis old = Except.ok v) ↔
        (old.length = 3 ∧ axis.length = 3 ∧ isclose (sumSq axis) 1)) ∧
    (∀ angle : ℝ, ∀ axis old : List ℝ, old.length ≠ 3 →
      rotate_vector angle axis old = Except.error RotateError.oldSize) ∧
    (∀ angle : ℝ, ∀ axis old : List ℝ, old.length = 3 → axis.length ≠ 3 →
      rotate_vector angle axis old = Except.error RotateError.axisSize) ∧
    (∀ angle : ℝ, ∀ axis old : List ℝ, old.length = 3 → axis.length = 3 →
      ¬ isclose (sumSq axis) 1 →
      rotate_vector angle axis old = Except.error (RotateError.nonUnit axis)) := by
  have e1 : ∀ angle : ℝ, ∀ axis old : List ℝ, old.length ≠ 3 →
      rotate_vector angle axis old = Except.error RotateError.oldSize := by
    intro angle axis old h
    simp only [rotate_vector]
    rw [if_neg h]
  have e2 : ∀ angle : ℝ, ∀ axis old : List ℝ, old.length = 3 → axis.length ≠ 3 →
      rotate_vector angle axis old = Except.error RotateError.axisSize := by
    intro angle axis old ho ha
    simp only [rotate_vector]
    rw [if_pos ho, if_neg ha]
  have e3 : ∀ angle : ℝ, ∀ axis old : List ℝ, old.length = 3 → axis.length = 3 →
      ¬ isclose (sumSq axis) 1 →
      rotate_vector angle axis old = Except.error (RotateError.nonUnit axis) := by
    intro angle axis old ho ha hcl
    simp only [rotate_vector]
    rw [if_pos ho, if_pos ha, if_neg hcl]
  refine ⟨?_, e1, e2, e3⟩
  intro angle axis old
  constructor
  · rintro ⟨v, hv⟩
    by_cases ho : old.length = 3
    · by_cases ha : axis.length = 3
      · by_cases hcl : isclose (sumSq axis) 1
        · exact ⟨ho, ha, hcl⟩
        · rw [e3 angle axis old ho ha hcl] at hv
          exact Except.noConfusion hv
      · rw [e2 angle axis old ho ha] at hv
        exact Except.noConfusion hv
    · rw [e1 angle axis old ho] at hv
      exact Except.noConfusion hv
  · rintro ⟨ho, ha, hcl⟩
    refine ⟨toList3 (add3 (add3 (smul3 (Real.cos angle) (ofList3 old))
        (smul3 ((1 - Real.cos angle) * dot3 (ofList3 axis) (ofList3 old)) (ofList3 axis)))
      (smul3 (Real.sin angle) (cross3 (ofList3 axis) (ofList3 old)))), ?_⟩
    simp only [rotate_vector]
    rw [if_pos ho, if_pos ha, if_pos hcl]

/-- Witness for C3: the non-unit axis `(1,1,0)` is rejected with its
components in the error, a 2-component axis is rejected as wrongly sized,
and a 2-component `old` is rejected as wrongly sized. -/
theorem rotate_vector_precondition_witness :
    rotate_vector 0 [1, 1, 0] [1, 0, 0] =
      Except.error (RotateError.nonUnit [1, 1, 0]) ∧
    rotate_vector 0 [1, 0] [1, 0, 0] = Except.error RotateError.axisSize ∧
    rotate_vector 0 [0, 0, 1] [1, 0] = Except.error RotateError.oldSize :=
  ⟨rotate_vector_precondition.2.2.2 0 [1, 1, 0] [1, 0, 0] (by simp) (by simp)
      (by rw [sumSq_triple]
          intro hc
          exact not_isclose_two_one (by norm_num at hc ⊢; exact hc)),
   rotate_vector_precondition.2.2.1 0 [1, 0] [1, 0, 0] (by simp) (by simp),
   rotate_vector_precondition.2.1 0 [0, 0, 1] [1, 0] (by simp)⟩
